import Mathlib

/-!
Verification of the Book/Author domain logic of the Alx_DjangoLearnLab
repository.

The embedded code is the validation, repository, statistics and
authorization logic of the two Django variants:

* `advanced-api-project/api/models.py` and `serializers.py` — the Author
  and Book models, their field validators and the `(title, author)`
  uniqueness constraint;
* `advanced-api-project/api/views.py` — list ordering, the books-by-author
  endpoint, and the `book_statistics` aggregation endpoint;
* `advanced_features_and_security/bookshelf/management/commands/setup_groups.py`
  and `bookshelf/views.py` — the group → permission mapping and the
  permission each book view demands.

Strings are embedded as lists of characters (the ASCII fragment of
Python's `str` semantics: `strip`, `title`, `replace`); the database is
embedded as an explicit in-memory store, with Django's per-request
transactionality reflected by operations that either return a whole new
store or fail without touching it.
-/

namespace DjangoLearnLab

/-! ## Character-level model of the Python string primitives -/

/-- The characters Python's `str.strip()` removes: space, tab, newline,
carriage return, vertical tab, form feed. -/
def pyIsSpace (c : Char) : Bool :=
  c.toNat = 32 || c.toNat = 9 || c.toNat = 10 || c.toNat = 13 || c.toNat = 11 || c.toNat = 12

theorem toNat_charOfNat {n : Nat} (h : n < 55296) : (Char.ofNat n).toNat = n := by
  unfold Char.ofNat
  rw [dif_pos (Or.inl h)]
  rfl

theorem lower_cond_iff (c : Char) :
    (c.val ≥ 97 ∧ c.val ≤ 122) ↔ (97 ≤ c.toNat ∧ c.toNat ≤ 122) := by
  simp [ge_iff_le, UInt32.le_def, BitVec.le_def, Char.toNat, UInt32.toNat]

theorem upper_cond_iff (c : Char) :
    (c.val ≥ 65 ∧ c.val ≤ 90) ↔ (65 ≤ c.toNat ∧ c.toNat ≤ 90) := by
  simp [ge_iff_le, UInt32.le_def, BitVec.le_def, Char.toNat, UInt32.toNat]

theorem isAlpha_toNat {c : Char} (h : c.isAlpha = true) :
    (65 ≤ c.toNat ∧ c.toNat ≤ 90) ∨ (97 ≤ c.toNat ∧ c.toNat ≤ 122) := by
  simp only [Char.isAlpha, Char.isUpper, Char.isLower, Bool.or_eq_true, Bool.and_eq_true,
    decide_eq_true_eq] at h
  rcases h with ⟨h1, h2⟩ | ⟨h1, h2⟩
  · exact Or.inl ((upper_cond_iff c).mp ⟨h1, h2⟩)
  · exact Or.inr ((lower_cond_iff c).mp ⟨h1, h2⟩)

theorem toUpper_toNat (c : Char) :
    (Char.toUpper c).toNat = if 97 ≤ c.toNat ∧ c.toNat ≤ 122 then c.toNat - 32 else c.toNat := by
  unfold Char.toUpper
  simp only [ge_iff_le]
  by_cases hlow : 97 ≤ c.toNat ∧ c.toNat ≤ 122
  · rw [if_pos hlow, if_pos hlow]
    exact toNat_charOfNat (by omega)
  · rw [if_neg hlow, if_neg hlow]

theorem toLower_toNat (c : Char) :
    (Char.toLower c).toNat = if 65 ≤ c.toNat ∧ c.toNat ≤ 90 then c.toNat + 32 else c.toNat := by
  unfold Char.toLower
  simp only [ge_iff_le]
  by_cases hup : 65 ≤ c.toNat ∧ c.toNat ≤ 90
  · rw [if_pos hup, if_pos hup]
    exact toNat_charOfNat (by omega)
  · rw [if_neg hup, if_neg hup]

theorem toUpper_not_space {c : Char} (h : c.isAlpha = true) :
    pyIsSpace (Char.toUpper c) = false := by
  have hv := isAlpha_toNat h
  have ht := toUpper_toNat c
  simp only [pyIsSpace, Bool.or_eq_false_iff, decide_eq_false_iff_not]
  by_cases hlow : 97 ≤ c.toNat ∧ c.toNat ≤ 122 <;> simp [hlow] at ht <;> omega

theorem toLower_not_space {c : Char} (h : c.isAlpha = true) :
    pyIsSpace (Char.toLower c) = false := by
  have hv := isAlpha_toNat h
  have ht := toLower_toNat c
  simp only [pyIsSpace, Bool.or_eq_false_iff, decide_eq_false_iff_not]
  by_cases hup : 65 ≤ c.toNat ∧ c.toNat ≤ 90 <;> simp [hup] at ht <;> omega

theorem space_not_alpha {c : Char} (h : pyIsSpace c = true) : c.isAlpha = false := by
  cases halpha : c.isAlpha
  · rfl
  · exfalso
    have hv := isAlpha_toNat halpha
    simp only [pyIsSpace, Bool.or_eq_true, decide_eq_true_eq] at h
    omega

/-- A Python string, as its list of characters. -/
abbrev PyStr := List Char

/-- Python's `str.strip()`: drop leading and trailing whitespace. -/
def pyStrip (s : PyStr) : PyStr :=
  ((s.dropWhile pyIsSpace).reverse.dropWhile pyIsSpace).reverse

/-- Helper for `pyTitle`: the flag records whether the previous character
was a letter (Python defines words as maximal groups of letters). -/
def pyTitleAux : Bool → PyStr → PyStr
  | _, [] => []
  | prevAlpha, c :: cs =>
    if c.isAlpha then
      (if prevAlpha then c.toLower else c.toUpper) :: pyTitleAux true cs
    else
      c :: pyTitleAux false cs

/-- Python's `str.title()` on the ASCII fragment: the first letter of each
word is uppercased and the remaining letters lowercased, a word being a
maximal run of letters. -/
def pyTitle (s : PyStr) : PyStr := pyTitleAux false s

/-! ## Validation module

`advanced-api-project/api/serializers.py`, field validators of
`BookSerializer` and `AuthorSerializer`. The error constructors carry the
spec's names for the `ValidationError` messages the code raises. -/

/-- The error taxonomy of the spec (§7), one constructor per distinct
`ValidationError` message / error kind in the source. -/
inductive VErr where
  | futureYear
  | yearTooEarly
  | emptyTitle
  | emptyName
  | invalidIsbnLength
  | authorNotFound
  | duplicateTitleForAuthor
  | notFound
deriving DecidableEq, Repr

/-- Model of `BookSerializer.validate_publication_year` (serializers.py:24-42):
rejects a year greater than the current year, then a year below 1000,
and otherwise returns the year unchanged. `currentYear` stands for
`timezone.now().year`. -/
def validate_publication_year (value currentYear : Int) : Except VErr Int :=
  if value > currentYear then .error .futureYear
  else if value < 1000 then .error .yearTooEarly
  else .ok value

/-- Model of `BookSerializer.validate_title` (serializers.py:44-52): rejects a
string that is empty or whitespace-only, otherwise returns it stripped. -/
def validate_title (value : PyStr) : Except VErr PyStr :=
  if value = [] ∨ pyStrip value = [] then .error .emptyTitle
  else .ok (pyStrip value)

/-- Model of `AuthorSerializer.validate_name` (serializers.py:108-116): rejects a
string that is empty or whitespace-only, otherwise returns
`value.strip().title()`. -/
def validate_name (value : PyStr) : Except VErr PyStr :=
  if value = [] ∨ pyStrip value = [] then .error .emptyName
  else .ok (pyTitle (pyStrip value))

/-- Model of `BookSerializer.validate_isbn` (serializers.py:54-67): a falsy value
(`None` or the empty string) is returned unchanged; otherwise hyphens and
spaces are removed (`value.replace('-', '').replace(' ', '')`) and the
result must be exactly 10 or 13 characters long. -/
def validate_isbn (value : Option PyStr) : Except VErr (Option PyStr) :=
  match value with
  | none => .ok none
  | some s =>
    if s = [] then .ok (some s)
    else
      if (s.filter (fun c => !(c = '-' || c = ' '))).length = 10
          ∨ (s.filter (fun c => !(c = '-' || c = ' '))).length = 13 then
        .ok (some (s.filter (fun c => !(c = '-' || c = ' '))))
      else .error .invalidIsbnLength

deriving instance DecidableEq for Except

/-! ## Domain model and repository

`advanced-api-project/api/models.py` (`Author`, `Book`,
`unique_together = ['title', 'author']`, `on_delete=models.CASCADE`) and
the create/update/delete paths of `api/views.py`, which all run the
serializer validators and then `Book.save` → `full_clean`. -/

/-- An `Author` row (models.py:6-37). Timestamps are system-managed and
play no role in any claim, so they are omitted from the row. -/
structure Author where
  id : Nat
  name : PyStr
deriving DecidableEq, Repr

/-- A `Book` row (models.py:40-116); `author` is the foreign key to
`Author.id`. -/
structure Book where
  id : Nat
  title : PyStr
  publication_year : Int
  author : Nat
  isbn : Option PyStr
deriving DecidableEq, Repr

/-- The database state: the two tables in insertion order, the next
auto-assigned primary keys, and the year `timezone.now()` reports. -/
structure Store where
  authors : List Author
  books : List Book
  nextAuthorId : Nat
  nextBookId : Nat
  currentYear : Int
deriving Repr

/-- Model of `Author.objects.filter(id=...).exists()` (serializers.py:75-80). -/
def Store.authorExists (s : Store) (aid : Nat) : Bool :=
  s.authors.any (fun a => a.id = aid)

/-- The database with no rows. -/
def emptyStore (currentYear : Int) : Store :=
  ⟨[], [], 1, 1, currentYear⟩

/-- Model of `AuthorSerializer.create` (serializers.py:118-123): validate the name,
insert a row with the next id. -/
def createAuthor (s : Store) (rawName : PyStr) : Except VErr (Store × Author) :=
  match validate_name rawName with
  | .error e => .error e
  | .ok n =>
    let a : Author := ⟨s.nextAuthorId, n⟩
    .ok ({ s with authors := s.authors ++ [a], nextAuthorId := s.nextAuthorId + 1 }, a)

/-- Book creation (`BookListCreateView.perform_create` → `BookSerializer`
field and object validation → `Book.save` → `full_clean`): the field
validators run, the author must exist (serializers.py:69-82), and
`validate_unique` enforces `unique_together = ['title', 'author']`
(models.py:74) against the stripped title. -/
def createBook (s : Store) (rawTitle : PyStr) (year : Int) (authorId : Nat)
    (rawIsbn : Option PyStr) : Except VErr (Store × Book) :=
  match validate_title rawTitle with
  | .error e => .error e
  | .ok t =>
    match validate_publication_year year s.currentYear with
    | .error e => .error e
    | .ok y =>
      match validate_isbn rawIsbn with
      | .error e => .error e
      | .ok i =>
        if ¬ s.authorExists authorId then .error .authorNotFound
        else if s.books.any (fun b => b.title = t ∧ b.author = authorId) then
          .error .duplicateTitleForAuthor
        else
          let b : Book := ⟨s.nextBookId, t, y, authorId, i⟩
          .ok ({ s with books := s.books ++ [b], nextBookId := s.nextBookId + 1 }, b)

/-- The fields a PATCH to an author may carry; `none` means the field was
not supplied. -/
structure AuthorFields where
  name : Option PyStr := none

/-- Model of `AuthorSerializer.update` (serializers.py:125-132): only the attributes
present in `validated_data` are set; the row keeps its id. -/
def updateAuthor (s : Store) (aid : Nat) (f : AuthorFields) :
    Except VErr (Store × Author) :=
  match s.authors.find? (fun a => a.id = aid) with
  | none => .error .notFound
  | some a =>
    match (match f.name with
           | some raw => validate_name raw
           | none => .ok a.name) with
    | .error e => .error e
    | .ok n =>
      let a2 : Author := ⟨a.id, n⟩
      .ok ({ s with authors := s.authors.map (fun x => if x.id = aid then a2 else x) }, a2)

/-- The fields a PATCH to a book may carry; `none` means the field was not
supplied (for `isbn`, `some none` supplies an explicitly absent ISBN). -/
structure BookFields where
  title : Option PyStr := none
  publication_year : Option Int := none
  author : Option Nat := none
  isbn : Option (Option PyStr) := none

/-- Book update (`BookDetailView` PATCH → `ModelSerializer.update` →
`Book.save` → `full_clean`): supplied fields are run through their field
validators, a supplied author must exist, and `validate_unique` checks
`(title, author)` against every other row (excluding the row itself, as
Django's `validate_unique` does). -/
def updateBook (s : Store) (bid : Nat) (f : BookFields) :
    Except VErr (Store × Book) :=
  match s.books.find? (fun b => b.id = bid) with
  | none => .error .notFound
  | some b =>
    match (match f.title with
           | some raw => validate_title raw
           | none => .ok b.title) with
    | .error e => .error e
    | .ok t =>
      match (match f.publication_year with
             | some v => validate_publication_year v s.currentYear
             | none => .ok b.publication_year) with
      | .error e => .error e
      | .ok y =>
        match (match f.isbn with
               | some raw => validate_isbn raw
               | none => .ok b.isbn) with
        | .error e => .error e
        | .ok i =>
          if f.author.isSome ∧ ¬ s.authorExists (f.author.getD b.author) then
            .error .authorNotFound
          else if s.books.any
              (fun x => x.id ≠ bid ∧ x.title = t ∧ x.author = f.author.getD b.author) then
            .error .duplicateTitleForAuthor
          else
            let b2 : Book := ⟨b.id, t, y, f.author.getD b.author, i⟩
            .ok ({ s with books := s.books.map (fun x => if x.id = bid then b2 else x) }, b2)

/-- Model of `AuthorDetailView`/`AuthorDeleteView` DELETE: the row is removed and
`on_delete=models.CASCADE` (models.py:56) removes every book whose
foreign key referenced it; a missing id is a 404. -/
def deleteAuthor (s : Store) (aid : Nat) : Except VErr Store :=
  if s.authorExists aid then
    .ok { s with
      authors := s.authors.filter (fun a => a.id ≠ aid),
      books := s.books.filter (fun b => b.author ≠ aid) }
  else .error .notFound

/-- Model of `BookDetailView`/`BookDeleteView` DELETE. -/
def deleteBook (s : Store) (bid : Nat) : Except VErr Store :=
  if s.books.any (fun b => b.id = bid) then
    .ok { s with books := s.books.filter (fun b => b.id ≠ bid) }
  else .error .notFound

/-- Lexicographic order on strings by code point (how the database
collates `ORDER BY title` for ASCII). -/
def strLe : PyStr → PyStr → Bool
  | [], _ => true
  | _ :: _, [] => false
  | a :: as, b :: bs =>
    if a.toNat < b.toNat then true
    else if b.toNat < a.toNat then false
    else strLe as bs

/-- The default book ordering `['-publication_year', 'title']`
(models.py:70, views.py:71): descending year, then ascending title. -/
def book_le (a b : Book) : Bool :=
  if a.publication_year = b.publication_year then strLe a.title b.title
  else decide (b.publication_year < a.publication_year)

/-- Model of `BookListView` GET with no query parameters: every row in the default
ordering. -/
def listBooks (s : Store) : List Book :=
  s.books.mergeSort book_le

/-! ## Statistics aggregator

`book_statistics` (views.py:305-349). -/

/-- The `Count('books')` annotation: how many books reference the author. -/
def bookCount (s : Store) (a : Author) : Nat :=
  (s.books.filter (fun b => b.author = a.id)).length

/-- Model of `order_by('-book_count')`: descending book count. The queryset order
is embedded as a stable sort over the rows in id (insertion) order. -/
def author_count_ge (s : Store) (a b : Author) : Bool :=
  decide (bookCount s b ≤ bookCount s a)

/-- Model of `Author.objects.annotate(book_count=Count('books')).order_by('-book_count')[:5]`
(views.py:331-333). -/
def topAuthors (s : Store) : List Author :=
  (s.authors.mergeSort (author_count_ge s)).take 5

/-- The distinct publication years, first occurrences first
(`values('publication_year')` grouping). -/
def distinctYears (s : Store) : List Int :=
  (s.books.map (fun b => b.publication_year)).dedup

/-- Model of `order_by('publication_year')`: ascending year. -/
def int_le (a b : Int) : Bool := decide (a ≤ b)

/-- Model of `Book.objects.values('publication_year').annotate(count=Count('id')).order_by('publication_year')`
(views.py:326-328): one `(year, count)` row per distinct year, ascending. -/
def booksPerYear (s : Store) : List (Int × Nat) :=
  ((distinctYears s).mergeSort int_le).map
    (fun y => (y, (s.books.filter (fun b => b.publication_year = y)).length))

/-- The response body of `book_statistics`. -/
structure Statistics where
  total_books : Nat
  total_authors : Nat
  earliest : Option Int
  latest : Option Int
  books_per_year : List (Int × Nat)
  top_authors : List Author
deriving DecidableEq, Repr

/-- Model of `book_statistics` (views.py:305-349): counts always; year range,
per-year histogram and top authors only when at least one book exists,
`None`/empty otherwise. -/
def book_statistics (s : Store) : Statistics :=
  let total_books := s.books.length
  let total_authors := s.authors.length
  if 0 < total_books then
    { total_books := total_books
      total_authors := total_authors
      earliest := (s.books.map (fun b => b.publication_year)).min?
      latest := (s.books.map (fun b => b.publication_year)).max?
      books_per_year := booksPerYear s
      top_authors := topAuthors s }
  else
    { total_books := total_books
      total_authors := total_authors
      earliest := none
      latest := none
      books_per_year := []
      top_authors := [] }

/-! ## Authorization gate

`setup_groups.py` (the group → permission assignment) and
`bookshelf/views.py` (the permission each view demands). -/

/-- The operations on `Book` (spec §4.4). -/
inductive BookOp where
  | view
  | create
  | edit
  | delete
deriving DecidableEq

/-- The custom `Book` permissions the bookshelf app declares. -/
inductive BookPermission where
  | can_view
  | can_create
  | can_edit
  | can_delete
deriving DecidableEq

/-- The three groups `setup_groups.py` creates. -/
inductive UserGroup where
  | Viewers
  | Editors
  | Admins
deriving DecidableEq

/-- Model of `Command.handle` (setup_groups.py:38-51): the permissions assigned to
each group. -/
def groupPermissions : UserGroup → List BookPermission
  | .Viewers => [.can_view]
  | .Editors => [.can_view, .can_create, .can_edit]
  | .Admins => [.can_view, .can_create, .can_edit, .can_delete]

/-- The permission each view demands (`bookshelf/views.py`): `book_list`
and `book_detail` check `can_view`, `book_create` requires `can_create`,
`book_edit` requires `can_edit`, `book_delete` requires `can_delete`. -/
def requiredPermission : BookOp → BookPermission
  | .view => .can_view
  | .create => .can_create
  | .edit => .can_edit
  | .delete => .can_delete

/-- Model of `user.has_perm` for a user whose only permission source is the group:
the operation is allowed iff the group carries the view's permission. -/
def authorize (g : UserGroup) (op : BookOp) : Bool :=
  (groupPermissions g).contains (requiredPermission op)

/-! ## Reachable stores

A store is reachable when it arises from the empty database by the
repository operations; a failed operation rolls back (the request's atomic
unit of work, spec §5) and leaves the store unchanged. -/

/-- One repository call. -/
inductive Op where
  | createAuthor (rawName : PyStr)
  | createBook (rawTitle : PyStr) (year : Int) (authorId : Nat) (rawIsbn : Option PyStr)
  | updateAuthor (aid : Nat) (f : AuthorFields)
  | updateBook (bid : Nat) (f : BookFields)
  | deleteAuthor (aid : Nat)
  | deleteBook (bid : Nat)

/-- The store after a call: the new store on success, the old store when
the call failed (transaction rollback). -/
def applyOp (s : Store) : Op → Store
  | .createAuthor raw =>
    match createAuthor s raw with
    | .ok (s2, _) => s2
    | .error _ => s
  | .createBook t y aid i =>
    match createBook s t y aid i with
    | .ok (s2, _) => s2
    | .error _ => s
  | .updateAuthor aid f =>
    match updateAuthor s aid f with
    | .ok (s2, _) => s2
    | .error _ => s
  | .updateBook bid f =>
    match updateBook s bid f with
    | .ok (s2, _) => s2
    | .error _ => s
  | .deleteAuthor aid =>
    match deleteAuthor s aid with
    | .ok s2 => s2
    | .error _ => s
  | .deleteBook bid =>
    match deleteBook s bid with
    | .ok s2 => s2
    | .error _ => s

/-- The stores the repository can ever be in. -/
inductive Reachable : Store → Prop where
  | empty (currentYear : Int) : Reachable (emptyStore currentYear)
  | step {s : Store} (op : Op) : Reachable s → Reachable (applyOp s op)

/-- The structural invariant of the database: primary keys are below the
id counters and distinct, and no two book rows agree on
`(title, author)` — the `unique_together` constraint of models.py:74. -/
structure StoreInv (s : Store) : Prop where
  bookIdsBelow : ∀ b ∈ s.books, b.id < s.nextBookId
  authorIdsBelow : ∀ a ∈ s.authors, a.id < s.nextAuthorId
  bookIdsDistinct : s.books.Pairwise (fun x y => x.id ≠ y.id)
  authorIdsDistinct : s.authors.Pairwise (fun x y => x.id ≠ y.id)
  uniqueTogether : s.books.Pairwise (fun x y => ¬(x.title = y.title ∧ x.author = y.author))

/-! ## Inversion lemmas: what a successful repository call entails -/

theorem createAuthor_ok {s : Store} {rawName : PyStr} {s2 : Store} {a : Author}
    (h : createAuthor s rawName = .ok (s2, a)) :
    validate_name rawName = .ok a.name
      ∧ a.id = s.nextAuthorId
      ∧ s2 = { s with authors := s.authors ++ [a], nextAuthorId := s.nextAuthorId + 1 } := by
  unfold createAuthor at h
  split at h
  · exact absurd h (by simp)
  · rename_i n hn
    simp only [Except.ok.injEq, Prod.mk.injEq] at h
    obtain ⟨hs2, ha⟩ := h
    subst ha
    exact ⟨hn, rfl, hs2.symm⟩

theorem createBook_ok {s : Store} {rawTitle : PyStr} {year : Int} {authorId : Nat}
    {rawIsbn : Option PyStr} {s2 : Store} {b : Book}
    (h : createBook s rawTitle year authorId rawIsbn = .ok (s2, b)) :
    ∃ t y i, validate_title rawTitle = .ok t
      ∧ validate_publication_year year s.currentYear = .ok y
      ∧ validate_isbn rawIsbn = .ok i
      ∧ s.authorExists authorId = true
      ∧ s.books.any (fun x => x.title = t ∧ x.author = authorId) = false
      ∧ b = ⟨s.nextBookId, t, y, authorId, i⟩
      ∧ s2 = { s with books := s.books ++ [b], nextBookId := s.nextBookId + 1 } := by
  unfold createBook at h
  split at h
  · exact absurd h (by simp)
  · rename_i t ht
    split at h
    · exact absurd h (by simp)
    · rename_i y hy
      split at h
      · exact absurd h (by simp)
      · rename_i i hi
        split at h
        · exact absurd h (by simp)
        · split at h
          · exact absurd h (by simp)
          · rename_i hex hdup
            simp only [Except.ok.injEq, Prod.mk.injEq] at h
            refine ⟨t, y, i, ht, hy, hi, ?_, ?_, h.2.symm, ?_⟩
            · revert hex
              cases hx : s.authorExists authorId <;> simp
            · revert hdup
              cases hd : s.books.any (fun x => x.title = t ∧ x.author = authorId) <;> simp
            · rw [← h.1, ← h.2]

theorem updateAuthor_ok {s : Store} {aid : Nat} {f : AuthorFields} {s2 : Store} {a2 : Author}
    (h : updateAuthor s aid f = .ok (s2, a2)) :
    ∃ a, s.authors.find? (fun x => x.id = aid) = some a
      ∧ (match f.name with
         | some raw => validate_name raw
         | none => .ok a.name) = .ok a2.name
      ∧ a2.id = a.id
      ∧ s2 = { s with authors := s.authors.map (fun x => if x.id = aid then a2 else x) } := by
  unfold updateAuthor at h
  split at h
  · exact absurd h (by simp)
  · rename_i a hfind
    split at h
    · exact absurd h (by simp)
    · rename_i n hn
      simp only [Except.ok.injEq, Prod.mk.injEq] at h
      obtain ⟨hs2, ha2⟩ := h
      subst ha2
      exact ⟨a, hfind, hn, rfl, hs2.symm⟩

theorem updateBook_ok {s : Store} {bid : Nat} {f : BookFields} {s2 : Store} {b2 : Book}
    (h : updateBook s bid f = .ok (s2, b2)) :
    ∃ b t y i, s.books.find? (fun x => x.id = bid) = some b
      ∧ (match f.title with
         | some raw => validate_title raw
         | none => .ok b.title) = .ok t
      ∧ (match f.publication_year with
         | some v => validate_publication_year v s.currentYear
         | none => .ok b.publication_year) = .ok y
      ∧ (match f.isbn with
         | some raw => validate_isbn raw
         | none => .ok b.isbn) = .ok i
      ∧ s.books.any
          (fun x => x.id ≠ bid ∧ x.title = t ∧ x.author = f.author.getD b.author) = false
      ∧ b2 = ⟨b.id, t, y, f.author.getD b.author, i⟩
      ∧ s2 = { s with books := s.books.map (fun x => if x.id = bid then b2 else x) } := by
  unfold updateBook at h
  split at h
  · exact absurd h (by simp)
  · rename_i b hfind
    split at h
    · exact absurd h (by simp)
    · rename_i t ht
      split at h
      · exact absurd h (by simp)
      · rename_i y hy
        split at h
        · exact absurd h (by simp)
        · rename_i i hi
          split at h
          · exact absurd h (by simp)
          · split at h
            · exact absurd h (by simp)
            · rename_i hex hdup
              simp only [Except.ok.injEq, Prod.mk.injEq] at h
              refine ⟨b, t, y, i, hfind, ht, hy, hi, ?_, h.2.symm, ?_⟩
              · revert hdup
                cases hd : s.books.any
                    (fun x => x.id ≠ bid ∧ x.title = t ∧ x.author = f.author.getD b.author) <;>
                  simp
              · rw [← h.1, ← h.2]

theorem deleteAuthor_ok {s : Store} {aid : Nat} {s2 : Store}
    (h : deleteAuthor s aid = .ok s2) :
    s.authorExists aid = true
      ∧ s2 = { s with
          authors := s.authors.filter (fun a => a.id ≠ aid),
          books := s.books.filter (fun b => b.author ≠ aid) } := by
  unfold deleteAuthor at h
  split at h
  · rename_i hex
    simp only [Except.ok.injEq] at h
    exact ⟨hex, h.symm⟩
  · exact absurd h (by simp)

theorem deleteBook_ok {s : Store} {bid : Nat} {s2 : Store}
    (h : deleteBook s bid = .ok s2) :
    s.books.any (fun b => b.id = bid) = true
      ∧ s2 = { s with books := s.books.filter (fun b => b.id ≠ bid) } := by
  unfold deleteBook at h
  split at h
  · rename_i hex
    simp only [Except.ok.injEq] at h
    exact ⟨hex, h.symm⟩
  · exact absurd h (by simp)

/-! ## The invariant holds in every reachable store -/

theorem storeInv_empty (cy : Int) : StoreInv (emptyStore cy) := by
  constructor <;> simp [emptyStore]

theorem storeInv_createAuthor {s : Store} {raw : PyStr} {s2 : Store} {a : Author}
    (hinv : StoreInv s) (h : createAuthor s raw = .ok (s2, a)) : StoreInv s2 := by
  obtain ⟨-, haid, hs2⟩ := createAuthor_ok h
  subst hs2
  constructor <;> dsimp only
  · exact hinv.bookIdsBelow
  · intro x hx
    simp only [List.mem_append, List.mem_singleton] at hx
    rcases hx with hx | hx
    · have := hinv.authorIdsBelow x hx
      omega
    · subst hx
      omega
  · exact hinv.bookIdsDistinct
  · rw [List.pairwise_append]
    refine ⟨hinv.authorIdsDistinct, by simp, ?_⟩
    intro x hx z hz
    simp only [List.mem_singleton] at hz
    subst hz
    have := hinv.authorIdsBelow x hx
    omega
  · exact hinv.uniqueTogether

theorem storeInv_createBook {s : Store} {rawTitle : PyStr} {year : Int} {authorId : Nat}
    {rawIsbn : Option PyStr} {s2 : Store} {b : Book}
    (hinv : StoreInv s) (h : createBook s rawTitle year authorId rawIsbn = .ok (s2, b)) :
    StoreInv s2 := by
  obtain ⟨t, y, i, -, -, -, -, hdup, hb, hs2⟩ := createBook_ok h
  subst hs2
  constructor <;> dsimp only
  · intro x hx
    simp only [List.mem_append, List.mem_singleton] at hx
    rcases hx with hx | hx
    · have := hinv.bookIdsBelow x hx
      omega
    · subst hx
      rw [hb]
      simp
  · exact hinv.authorIdsBelow
  · rw [List.pairwise_append]
    refine ⟨hinv.bookIdsDistinct, by simp, ?_⟩
    intro x hx z hz
    simp only [List.mem_singleton] at hz
    subst hz
    have := hinv.bookIdsBelow x hx
    rw [hb]
    simp only []
    omega
  · exact hinv.authorIdsDistinct
  · rw [List.pairwise_append]
    refine ⟨hinv.uniqueTogether, by simp, ?_⟩
    intro x hx z hz
    simp only [List.mem_singleton] at hz
    subst hz
    rw [List.any_eq_false] at hdup
    have hx2 := hdup x hx
    rw [hb]
    simp only [decide_eq_true_eq] at hx2
    intro hcon
    exact hx2 ⟨hcon.1, hcon.2⟩

theorem storeInv_updateAuthor {s : Store} {aid : Nat} {f : AuthorFields}
    {s2 : Store} {a2 : Author}
    (hinv : StoreInv s) (h : updateAuthor s aid f = .ok (s2, a2)) : StoreInv s2 := by
  obtain ⟨a, hfind, -, haid, hs2⟩ := updateAuthor_ok h
  have haeq : a.id = aid := by
    have := List.find?_some hfind
    simpa using this
  have hpt : ∀ x : Author, ((if x.id = aid then a2 else x) : Author).id = x.id := by
    intro x
    by_cases hx : x.id = aid
    · rw [if_pos hx, haid, haeq, hx]
    · rw [if_neg hx]
  subst hs2
  constructor <;> dsimp only
  · exact hinv.bookIdsBelow
  · intro x hx
    obtain ⟨z, hz, hzx⟩ := List.mem_map.mp hx
    have := hinv.authorIdsBelow z hz
    rw [← hzx, hpt z]
    exact this
  · exact hinv.bookIdsDistinct
  · rw [List.pairwise_map]
    refine hinv.authorIdsDistinct.imp ?_
    intro x z hxz
    rw [hpt x, hpt z]
    exact hxz
  · exact hinv.uniqueTogether

theorem storeInv_updateBook {s : Store} {bid : Nat} {f : BookFields}
    {s2 : Store} {b2 : Book}
    (hinv : StoreInv s) (h : updateBook s bid f = .ok (s2, b2)) : StoreInv s2 := by
  obtain ⟨b, t, y, i, hfind, -, -, -, hdup, hb2, hs2⟩ := updateBook_ok h
  have hbeq : b.id = bid := by
    have := List.find?_some hfind
    simpa using this
  have hb2id : b2.id = bid := by
    rw [hb2, ← hbeq]
  have hpt : ∀ x : Book, ((if x.id = bid then b2 else x) : Book).id = x.id := by
    intro x
    by_cases hx : x.id = bid
    · rw [if_pos hx, hb2id, hx]
    · rw [if_neg hx]
  rw [List.any_eq_false] at hdup
  subst hs2
  constructor <;> dsimp only
  · intro x hx
    obtain ⟨z, hz, hzx⟩ := List.mem_map.mp hx
    have := hinv.bookIdsBelow z hz
    rw [← hzx, hpt z]
    exact this
  · exact hinv.authorIdsBelow
  · rw [List.pairwise_map]
    refine hinv.bookIdsDistinct.imp ?_
    intro x z hxz
    rw [hpt x, hpt z]
    exact hxz
  · exact hinv.authorIdsDistinct
  · rw [List.pairwise_map]
    refine (hinv.bookIdsDistinct.and hinv.uniqueTogether).imp_of_mem ?_
    intro x z hx hz hxz
    obtain ⟨hids, hpair⟩ := hxz
    by_cases hxb : x.id = bid
    · have hzb : ¬ z.id = bid := fun hc => hids (by rw [hxb, hc])
      rw [if_pos hxb, if_neg hzb]
      have hno := hdup z hz
      simp only [decide_eq_true_eq] at hno
      rw [hb2]
      intro hcon
      exact hno ⟨hzb, hcon.1.symm, hcon.2.symm⟩
    · by_cases hzb : z.id = bid
      · rw [if_neg hxb, if_pos hzb]
        have hno := hdup x hx
        simp only [decide_eq_true_eq] at hno
        rw [hb2]
        intro hcon
        exact hno ⟨hxb, hcon.1, hcon.2⟩
      · rw [if_neg hxb, if_neg hzb]
        exact hpair

theorem storeInv_deleteAuthor {s : Store} {aid : Nat} {s2 : Store}
    (hinv : StoreInv s) (h : deleteAuthor s aid = .ok s2) : StoreInv s2 := by
  obtain ⟨-, hs2⟩ := deleteAuthor_ok h
  subst hs2
  constructor <;> dsimp only
  · intro x hx
    exact hinv.bookIdsBelow x (List.mem_of_mem_filter hx)
  · intro x hx
    exact hinv.authorIdsBelow x (List.mem_of_mem_filter hx)
  · exact hinv.bookIdsDistinct.sublist (List.filter_sublist _)
  · exact hinv.authorIdsDistinct.sublist (List.filter_sublist _)
  · exact hinv.uniqueTogether.sublist (List.filter_sublist _)

theorem storeInv_deleteBook {s : Store} {bid : Nat} {s2 : Store}
    (hinv : StoreInv s) (h : deleteBook s bid = .ok s2) : StoreInv s2 := by
  obtain ⟨-, hs2⟩ := deleteBook_ok h
  subst hs2
  constructor <;> dsimp only
  · intro x hx
    exact hinv.bookIdsBelow x (List.mem_of_mem_filter hx)
  · exact hinv.authorIdsBelow
  · exact hinv.bookIdsDistinct.sublist (List.filter_sublist _)
  · exact hinv.authorIdsDistinct
  · exact hinv.uniqueTogether.sublist (List.filter_sublist _)

/-- Every reachable store satisfies the structural invariant; in
particular the `(title, author)` uniqueness constraint always holds. -/
theorem reachable_storeInv {s : Store} (h : Reachable s) : StoreInv s := by
  induction h with
  | empty cy => exact storeInv_empty cy
  | step op _ ih =>
    cases op with
    | createAuthor raw =>
      simp only [applyOp]
      split
      · exact storeInv_createAuthor ih ‹_›
      · exact ih
    | createBook rawTitle year authorId rawIsbn =>
      simp only [applyOp]
      split
      · exact storeInv_createBook ih ‹_›
      · exact ih
    | updateAuthor aid f =>
      simp only [applyOp]
      split
      · exact storeInv_updateAuthor ih ‹_›
      · exact ih
    | updateBook bid f =>
      simp only [applyOp]
      split
      · exact storeInv_updateBook ih ‹_›
      · exact ih
    | deleteAuthor aid =>
      simp only [applyOp]
      split
      · exact storeInv_deleteAuthor ih ‹_›
      · exact ih
    | deleteBook bid =>
      simp only [applyOp]
      split
      · exact storeInv_deleteBook ih ‹_›
      · exact ih

/-! ## String normalization lemmas (for the author-name invariant) -/

theorem dropWhile_head_not {α : Type} {p : α → Bool} :
    ∀ {l : List α} {c : α} {rest : List α}, l.dropWhile p = c :: rest → p c = false := by
  intro l
  induction l with
  | nil => intro c rest h; exact absurd h (by simp)
  | cons x xs ih =>
    intro c rest h
    by_cases hx : p x
    · rw [List.dropWhile_cons_of_pos hx] at h
      exact ih h
    · rw [List.dropWhile_cons_of_neg hx] at h
      obtain ⟨hc, -⟩ := List.cons.inj h
      rw [← hc]
      exact Bool.of_not_eq_true hx

/-- A nonempty stripped string contains a non-whitespace character. -/
theorem pyStrip_any_not_space {s : PyStr} (h : pyStrip s ≠ []) :
    (pyStrip s).any (fun c => !(pyIsSpace c)) = true := by
  unfold pyStrip at *
  cases hu : (s.dropWhile pyIsSpace).reverse.dropWhile pyIsSpace with
  | nil => exact absurd (by rw [hu]; rfl) h
  | cons c rest =>
    have hc : pyIsSpace c = false := dropWhile_head_not hu
    rw [List.any_eq_true]
    exact ⟨c, by simp, by simp [hc]⟩

/-- The map `pyTitleAux` keeps some non-whitespace character when the input has
one: non-letters pass through unchanged and letters stay letters. -/
theorem pyTitleAux_any_not_space :
    ∀ (flag : Bool) (l : PyStr), l.any (fun c => !(pyIsSpace c)) = true →
      (pyTitleAux flag l).any (fun c => !(pyIsSpace c)) = true := by
  intro flag l
  induction l generalizing flag with
  | nil => intro h; exact absurd h (by simp)
  | cons c cs ih =>
    intro h
    rw [List.any_cons] at h
    unfold pyTitleAux
    by_cases hc : c.isAlpha
    · rw [if_pos hc, List.any_cons]
      cases flag <;> simp [toLower_not_space hc, toUpper_not_space hc]
    · rw [if_neg hc, List.any_cons]
      rcases Bool.or_eq_true_iff.mp h with hl | hr
      · rw [hl]
        simp
      · rw [ih false hr]
        simp

theorem pyTitle_any_not_space {l : PyStr} (h : l.any (fun c => !(pyIsSpace c)) = true) :
    (pyTitle l).any (fun c => !(pyIsSpace c)) = true :=
  pyTitleAux_any_not_space false l h

theorem pyTitleAux_ne_nil {flag : Bool} {l : PyStr} (h : l ≠ []) :
    pyTitleAux flag l ≠ [] := by
  cases l with
  | nil => exact absurd rfl h
  | cons c cs =>
    unfold pyTitleAux
    by_cases hc : c.isAlpha <;> simp [hc]

/-! ## Ordering lemmas (for the statistics endpoint) -/

theorem pair_sublist_of_mem {α : Type} {a b : α} :
    ∀ {l : List α}, a ∈ l → b ∈ l → a ≠ b → List.Sublist [a, b] l ∨ List.Sublist [b, a] l := by
  intro l
  induction l with
  | nil => intro ha; exact absurd ha (by simp)
  | cons x xs ih =>
    intro ha hb hne
    rcases List.mem_cons.mp ha with hax | hax
    · subst hax
      have hbxs : b ∈ xs := by
        rcases List.mem_cons.mp hb with hbx | hbx
        · exact absurd hbx.symm hne
        · exact hbx
      exact Or.inl (.cons₂ a (List.singleton_sublist.mpr hbxs))
    · rcases List.mem_cons.mp hb with hbx | hbx
      · subst hbx
        exact Or.inr (.cons₂ b (List.singleton_sublist.mpr hax))
      · rcases ih hax hbx hne with h | h
        · exact Or.inl (h.cons x)
        · exact Or.inr (h.cons x)

theorem not_pair_sublist_both {α : Type} {a b : α} :
    ∀ {l : List α}, List.Sublist [a, b] l → List.Sublist [b, a] l → l.Nodup → a ≠ b → False := by
  intro l
  induction l with
  | nil => intro h1; cases h1
  | cons x xs ih =>
    intro h1 h2 hnd hne
    have hx_notin : x ∉ xs := (List.nodup_cons.mp hnd).1
    have hnd' : xs.Nodup := (List.nodup_cons.mp hnd).2
    cases h1 with
    | cons _ h1' =>
      cases h2 with
      | cons _ h2' => exact ih h1' h2' hnd' hne
      | cons₂ _ h2' => exact hx_notin (h1'.subset (by simp))
    | cons₂ _ h1' =>
      cases h2 with
      | cons _ h2' => exact hx_notin (h2'.subset (by simp))
      | cons₂ _ h2' => exact hne rfl

theorem sorted_take_dominates {α : Type} {le : α → α → Prop} {l : List α} {n : Nat}
    (hs : l.Pairwise le) :
    ∀ x ∈ l.take n, ∀ y ∈ l, y ∉ l.take n → le x y := by
  intro x hx y hy hyn
  have hsplit : l.take n ++ l.drop n = l := List.take_append_drop n l
  have hps : (l.take n ++ l.drop n).Pairwise le := by rw [hsplit]; exact hs
  rw [List.pairwise_append] at hps
  have hyd : y ∈ l.drop n := by
    rw [← hsplit] at hy
    rcases List.mem_append.mp hy with h | h
    · exact absurd h hyn
    · exact h
  exact hps.2.2 x hx y hyd

theorem author_count_ge_trans (s : Store) : ∀ a b c : Author,
    author_count_ge s a b → author_count_ge s b c → author_count_ge s a c := by
  intro a b c hab hbc
  simp only [author_count_ge, decide_eq_true_eq] at *
  omega

theorem author_count_ge_total (s : Store) : ∀ a b : Author,
    author_count_ge s a b || author_count_ge s b a := by
  intro a b
  simp only [author_count_ge, Bool.or_eq_true, decide_eq_true_eq]
  omega

theorem int_le_trans : ∀ a b c : Int, int_le a b → int_le b c → int_le a c := by
  intro a b c hab hbc
  simp only [int_le, decide_eq_true_eq] at *
  omega

theorem int_le_total : ∀ a b : Int, int_le a b || int_le b a := by
  intro a b
  simp only [int_le, Bool.or_eq_true, decide_eq_true_eq]
  omega

theorem topAuthors_sorted (s : Store) :
    (topAuthors s).Pairwise (fun a b => bookCount s b ≤ bookCount s a) := by
  unfold topAuthors
  refine List.Pairwise.sublist (List.take_sublist _ _) ?_
  have hs := List.sorted_mergeSort (author_count_ge_trans s) (author_count_ge_total s) s.authors
  exact hs.imp (fun h => by simpa [author_count_ge] using h)

theorem topAuthors_length (s : Store) :
    (topAuthors s).length = min 5 s.authors.length := by
  unfold topAuthors
  rw [List.length_take, List.length_mergeSort]

theorem topAuthors_dominates (s : Store) :
    ∀ a ∈ topAuthors s, ∀ b ∈ s.authors, b ∉ topAuthors s →
      bookCount s b ≤ bookCount s a := by
  intro a ha b hb hbn
  have hs : (s.authors.mergeSort (author_count_ge s)).Pairwise
      (fun x z => bookCount s z ≤ bookCount s x) := by
    have h := List.sorted_mergeSort (author_count_ge_trans s) (author_count_ge_total s) s.authors
    exact h.imp (fun h => by simpa [author_count_ge] using h)
  have hbm : b ∈ s.authors.mergeSort (author_count_ge s) := List.mem_mergeSort.mpr hb
  unfold topAuthors at ha hbn
  exact sorted_take_dominates hs a ha b hbm hbn

theorem topAuthors_stable (s : Store)
    (hids : s.authors.Pairwise (fun x y => x.id ≠ y.id)) :
    ∀ a b : Author, bookCount s a = bookCount s b →
      List.Sublist [a, b] (topAuthors s) → List.Sublist [a, b] s.authors := by
  intro a b hcount hsub
  have hnd : s.authors.Nodup := hids.imp (fun h hc => h (by rw [hc]))
  have hndsorted : (s.authors.mergeSort (author_count_ge s)).Nodup :=
    (List.mergeSort_perm s.authors (author_count_ge s)).symm.nodup hnd
  have hsub2 : List.Sublist [a, b] (s.authors.mergeSort (author_count_ge s)) := by
    unfold topAuthors at hsub
    exact hsub.trans (List.take_sublist _ _)
  by_cases hab : a = b
  · exfalso
    subst hab
    have hpw : ([a, a] : List Author).Pairwise (fun x z => x ≠ z) :=
      hndsorted.sublist hsub2
    simp at hpw
  · have hamem : a ∈ s.authors := List.mem_mergeSort.mp (hsub2.subset (by simp))
    have hbmem : b ∈ s.authors := List.mem_mergeSort.mp (hsub2.subset (by simp))
    rcases pair_sublist_of_mem hamem hbmem hab with h | h
    · exact h
    · exfalso
      have hle : author_count_ge s b a = true := by
        simp only [author_count_ge, decide_eq_true_eq]
        omega
      have hba : List.Sublist [b, a] (s.authors.mergeSort (author_count_ge s)) :=
        List.sublist_mergeSort (author_count_ge_trans s) (author_count_ge_total s)
          (List.pairwise_pair.mpr hle) h
      exact not_pair_sublist_both hsub2 hba hndsorted hab

theorem booksPerYear_sorted (s : Store) :
    (booksPerYear s).Pairwise (fun p q => p.1 < q.1) := by
  unfold booksPerYear
  rw [List.pairwise_map]
  have hsorted : ((distinctYears s).mergeSort int_le).Pairwise (fun a b => a ≤ b) := by
    have h := List.sorted_mergeSort int_le_trans int_le_total (distinctYears s)
    exact h.imp (fun h => by simpa [int_le] using h)
  have hnd : ((distinctYears s).mergeSort int_le).Nodup :=
    (List.mergeSort_perm (distinctYears s) int_le).symm.nodup (List.nodup_dedup _)
  exact (hsorted.and hnd).imp (fun h => lt_of_le_of_ne h.1 h.2)

/-! ## Concrete fixtures used by the witnesses -/

/-- One author, no books. -/
def egStore0 : Store :=
  ⟨[⟨1, "Jane Austen".toList⟩], [], 2, 1, 2025⟩

/-- The store `egStore0` after `createBook "Emma" 1815 1 none`. -/
def egStore1 : Store :=
  ⟨[⟨1, "Jane Austen".toList⟩], [⟨1, "Emma".toList, 1815, 1, none⟩], 2, 2, 2025⟩

/-- The store `egStore1` after a second book by the same author. -/
def egStore2 : Store :=
  ⟨[⟨1, "Jane Austen".toList⟩],
   [⟨1, "Emma".toList, 1815, 1, none⟩, ⟨2, "Persuasion".toList, 1817, 1, none⟩],
   2, 3, 2025⟩

/-! ## The claims -/

/-- Claim C1, counterexample to the claim as stated: the claim quantifies
over every integer `currentYear`, but the future-year check runs first,
so with `currentYear = 999` the input `year = 1000` is rejected with
`FutureYear` instead of succeeding, and with `currentYear = 500` the
input `year = 900 < 1000` fails with `FutureYear`, not `YearTooEarly`. -/
theorem validate_publication_year_universal_claim_false :
    validate_publication_year 1000 999 = .error .futureYear
    ∧ validate_publication_year 900 500 = .error .futureYear := by decide

/-- Claim C1 (amended with the hypothesis `1000 ≤ currentYear`, which holds
of the real `timezone.now().year`): `validate_publication_year` fails with
`FutureYear` when `year > currentYear`, fails with `YearTooEarly` when
`year < 1000`, returns the year unchanged otherwise; `year = 1000` and
`year = currentYear` succeed, `year = currentYear + 1` and `year = 999`
fail. -/
theorem validate_publication_year_spec (year currentYear : Int)
    (hcy : 1000 ≤ currentYear) :
    (currentYear < year → validate_publication_year year currentYear = .error .futureYear)
    ∧ (year < 1000 → validate_publication_year year currentYear = .error .yearTooEarly)
    ∧ (1000 ≤ year → year ≤ currentYear →
        validate_publication_year year currentYear = .ok year)
    ∧ validate_publication_year 1000 currentYear = .ok 1000
    ∧ validate_publication_year currentYear currentYear = .ok currentYear
    ∧ validate_publication_year (currentYear + 1) currentYear = .error .futureYear
    ∧ validate_publication_year 999 currentYear = .error .yearTooEarly := by
  unfold validate_publication_year
  refine ⟨?_, ?_, ?_, ?_, ?_, ?_, ?_⟩
  · intro h
    rw [if_pos (by omega)]
  · intro h
    rw [if_neg (by omega), if_pos h]
  · intro h1 h2
    rw [if_neg (by omega), if_neg (by omega)]
  · rw [if_neg (by omega), if_neg (by omega)]
  · rw [if_neg (by omega), if_neg (by omega)]
  · rw [if_pos (by omega)]
  · rw [if_neg (by omega), if_pos (by omega)]

/-- Claim C1, witness: the amended theorem applied at
`year = 1000, currentYear = 2025`. -/
theorem validate_publication_year_spec_witness :
    validate_publication_year 1000 2025 = .ok 1000 :=
  (validate_publication_year_spec 1000 2025 (by decide)).2.2.2.1

/-- Claim C2, counterexample to the claim as stated: the claim quantifies
over every present string, but the code tests Python truthiness
(`if value:`), so the present-but-empty string passes validation unchanged
even though its stripped length 0 is neither 10 nor 13. -/
theorem validate_isbn_present_claim_false :
    validate_isbn (some []) = .ok (some [])
    ∧ validate_isbn (some []) ≠ .error .invalidIsbnLength
    ∧ (([] : PyStr).filter (fun c => !(c = '-' || c = ' '))).length = 0 := by decide

/-- Claim C2 (amended to non-empty present strings): `None` passes through
as absent; a non-empty string has `'-'` and `' '` characters removed and
the result is returned exactly when its length is 10 or 13, with
`InvalidIsbnLength` otherwise; `"123-456-789-0"` normalizes to
`"1234567890"` and passes, `"12345"` fails. -/
theorem validate_isbn_spec (s : PyStr) (hne : s ≠ []) :
    validate_isbn none = .ok none
    ∧ ((s.filter (fun c => !(c = '-' || c = ' '))).length = 10
        ∨ (s.filter (fun c => !(c = '-' || c = ' '))).length = 13 →
       validate_isbn (some s) = .ok (some (s.filter (fun c => !(c = '-' || c = ' ')))))
    ∧ (¬ ((s.filter (fun c => !(c = '-' || c = ' '))).length = 10
        ∨ (s.filter (fun c => !(c = '-' || c = ' '))).length = 13) →
       validate_isbn (some s) = .error .invalidIsbnLength)
    ∧ validate_isbn (some "123-456-789-0".toList) = .ok (some "1234567890".toList)
    ∧ validate_isbn (some "12345".toList) = .error .invalidIsbnLength := by
  refine ⟨rfl, ?_, ?_, by decide, by decide⟩
  · intro h
    simp only [validate_isbn]
    rw [if_neg hne, if_pos h]
  · intro h
    simp only [validate_isbn]
    rw [if_neg hne, if_neg h]

/-- Claim C2, witness: the amended theorem applied at `"123-456-789-0"`. -/
theorem validate_isbn_spec_witness :
    validate_isbn (some "123-456-789-0".toList) = .ok (some "1234567890".toList) :=
  (validate_isbn_spec "123-456-789-0".toList (by decide)).2.2.2.1

/-- Claim C10: the present-but-empty ISBN string `""` is returned unchanged
with no error, although its stripped length 0 is neither 10 nor 13. -/
theorem validate_isbn_empty_string_passes :
    validate_isbn (some []) = .ok (some [])
    ∧ (([] : PyStr).filter (fun c => !(c = '-' || c = ' '))).length ≠ 10
    ∧ (([] : PyStr).filter (fun c => !(c = '-' || c = ' '))).length ≠ 13 := by decide

/-- Claim C4: the full group → operation truth table of the authorization
gate: Viewers may only view; Editors may view, create and edit; Admins may
view, create, edit and delete; in particular Viewers cannot delete and
Admins can. -/
theorem authorize_group_operation_mapping :
    authorize .Viewers .view = true ∧ authorize .Viewers .create = false
    ∧ authorize .Viewers .edit = false ∧ authorize .Viewers .delete = false
    ∧ authorize .Editors .view = true ∧ authorize .Editors .create = true
    ∧ authorize .Editors .edit = true ∧ authorize .Editors .delete = false
    ∧ authorize .Admins .view = true ∧ authorize .Admins .create = true
    ∧ authorize .Admins .edit = true ∧ authorize .Admins .delete = true := by decide

/-- Claim C6: on the empty store, `book_statistics` returns zero totals,
`None` year bounds, and empty per-year and top-author lists. -/
theorem book_statistics_empty_store (currentYear : Int) :
    book_statistics (emptyStore currentYear) =
      { total_books := 0, total_authors := 0, earliest := none, latest := none,
        books_per_year := [], top_authors := [] } := rfl

/-- Claim C5: deleting an author cascades — a book is listed after
`deleteAuthor id` exactly when it was listed before and its author is not
the deleted one; in particular every book of the deleted author is gone. -/
theorem deleteAuthor_cascades (s : Store) (aid : Nat) (s2 : Store)
    (h : deleteAuthor s aid = .ok s2) (b : Book) :
    b ∈ listBooks s2 ↔ (b ∈ listBooks s ∧ b.author ≠ aid) := by
  obtain ⟨-, hs2⟩ := deleteAuthor_ok h
  subst hs2
  unfold listBooks
  rw [List.mem_mergeSort, List.mem_mergeSort]
  dsimp only
  rw [List.mem_filter]
  simp

/-- Claim C5, witness: deleting the only author of `egStore2` (who has two
books) removes the book `"Emma"` from the listing. -/
theorem deleteAuthor_cascades_witness :
    (⟨1, "Emma".toList, 1815, 1, none⟩ : Book) ∈ listBooks (⟨[], [], 2, 3, 2025⟩ : Store)
      ↔ ((⟨1, "Emma".toList, 1815, 1, none⟩ : Book) ∈ listBooks egStore2
          ∧ (⟨1, "Emma".toList, 1815, 1, none⟩ : Book).author ≠ 1) :=
  deleteAuthor_cascades egStore2 1 ⟨[], [], 2, 3, 2025⟩ (by rfl)
    ⟨1, "Emma".toList, 1815, 1, none⟩

/-- Claim C9: `validate_name` fails with `EmptyName` exactly when the input
is empty after trimming; otherwise it returns the trimmed, title-cased
value, and every successfully returned name is non-empty and contains a
non-whitespace character. -/
theorem validate_name_spec (raw : PyStr) :
    (pyStrip raw = [] → validate_name raw = .error .emptyName)
    ∧ (pyStrip raw ≠ [] → validate_name raw = .ok (pyTitle (pyStrip raw)))
    ∧ (∀ v, validate_name raw = .ok v →
        v ≠ [] ∧ v.any (fun c => !(pyIsSpace c)) = true) := by
  refine ⟨?_, ?_, ?_⟩
  · intro h
    unfold validate_name
    rw [if_pos (Or.inr h)]
  · intro h
    unfold validate_name
    rw [if_neg ?_]
    intro hcond
    rcases hcond with hraw | hstrip
    · subst hraw
      exact h rfl
    · exact h hstrip
  · intro v hv
    unfold validate_name at hv
    by_cases hcond : raw = [] ∨ pyStrip raw = []
    · rw [if_pos hcond] at hv
      exact absurd hv (by simp)
    · rw [if_neg hcond] at hv
      have hstrip : pyStrip raw ≠ [] := fun hc => hcond (Or.inr hc)
      simp only [Except.ok.injEq] at hv
      subst hv
      exact ⟨pyTitleAux_ne_nil hstrip,
        pyTitle_any_not_space (pyStrip_any_not_space hstrip)⟩

/-- Claim C9, witness: the theorem applied at `"  jane austen  "`, which
normalizes to `"Jane Austen"`. -/
theorem validate_name_spec_witness :
    validate_name "  jane austen  ".toList = .ok "Jane Austen".toList := by
  have h := (validate_name_spec "  jane austen  ".toList).2.1 (by decide)
  rw [h]
  rfl

/-- Claim C3: once a book is created, a second `createBook` with the same
raw title and author id — and any inputs passing field validation — fails
with the duplicate error; moreover in every reachable store no two book
rows agree on `(title, author)`. -/
theorem createBook_duplicate_rejected (s : Store) (rawTitle : PyStr) (year year2 : Int)
    (authorId : Nat) (rawIsbn rawIsbn2 : Option PyStr) (s2 : Store) (b : Book)
    (h : createBook s rawTitle year authorId rawIsbn = .ok (s2, b))
    (hy2 : ∃ y2, validate_publication_year year2 s2.currentYear = .ok y2)
    (hi2 : ∃ i2, validate_isbn rawIsbn2 = .ok i2) :
    createBook s2 rawTitle year2 authorId rawIsbn2 = .error .duplicateTitleForAuthor
    ∧ (∀ s3 : Store, Reachable s3 →
        s3.books.Pairwise (fun x y => ¬(x.title = y.title ∧ x.author = y.author))) := by
  obtain ⟨t, y, i, ht, hy, hi, hex, hdup, hb, hs2⟩ := createBook_ok h
  constructor
  · obtain ⟨y2, hy2⟩ := hy2
    obtain ⟨i2, hi2⟩ := hi2
    have hex2 : s2.authorExists authorId = true := by
      rw [hs2]
      exact hex
    have hany : s2.books.any (fun x => x.title = t ∧ x.author = authorId) = true := by
      rw [hs2]
      dsimp only
      rw [List.any_append]
      simp [hb]
    simp only [createBook, ht, hy2, hi2]
    rw [List.any_eq_true] at hany
    simp only [decide_eq_true_eq] at hany
    simp [hex2, hany]
  · intro s3 hr
    exact (reachable_storeInv hr).uniqueTogether

/-- Claim C3, witness: creating `"Emma"` for author 1 twice — the second
call on the store that already holds the book fails with the duplicate
error. -/
theorem createBook_duplicate_rejected_witness :
    createBook egStore1 "Emma".toList 1817 1 none = .error .duplicateTitleForAuthor
    ∧ (∀ s3 : Store, Reachable s3 →
        s3.books.Pairwise (fun x y => ¬(x.title = y.title ∧ x.author = y.author))) :=
  createBook_duplicate_rejected egStore0 "Emma".toList 1815 1817 1 none none egStore1
    ⟨1, "Emma".toList, 1815, 1, none⟩ (by rfl) ⟨1817, by rfl⟩ ⟨none, rfl⟩

/-- Claim C7, counterexample to the claim as stated: the claim quantifies
over every store state, but for a store with one author and no books the
endpoint returns `top_authors = []` (the `total_books > 0` guard), not the
top-5-by-count list, which would contain that author. -/
theorem book_statistics_no_books_claim_false :
    (book_statistics egStore0).top_authors = []
    ∧ egStore0.authors.length = 1
    ∧ (book_statistics egStore0).top_authors.length ≠ min 5 egStore0.authors.length := by
  decide

/-- Claim C7 (amended with the hypothesis that at least one book exists —
otherwise the endpoint returns empty lists — and that author ids are
distinct, as in any real table): `books_per_year` is strictly ascending by
year, and `top_authors` is sorted by descending book count, has
`min 5 (number of authors)` entries, dominates every non-member's count,
and breaks ties by the authors' insertion/id order (a pair appearing in
`top_authors` with equal counts appears in the same order in the table). -/
theorem book_statistics_ordering (s : Store)
    (hbooks : 0 < s.books.length)
    (hids : s.authors.Pairwise (fun x y => x.id ≠ y.id)) :
    (book_statistics s).books_per_year.Pairwise (fun p q => p.1 < q.1)
    ∧ (book_statistics s).top_authors.Pairwise (fun a b => bookCount s b ≤ bookCount s a)
    ∧ (book_statistics s).top_authors.length = min 5 s.authors.length
    ∧ (∀ a ∈ (book_statistics s).top_authors, ∀ b ∈ s.authors,
        b ∉ (book_statistics s).top_authors → bookCount s b ≤ bookCount s a)
    ∧ (∀ a b : Author, bookCount s a = bookCount s b →
        List.Sublist [a, b] (book_statistics s).top_authors →
        List.Sublist [a, b] s.authors) := by
  have hbp : (book_statistics s).books_per_year = booksPerYear s := by
    simp [book_statistics, hbooks]
  have hta : (book_statistics s).top_authors = topAuthors s := by
    simp [book_statistics, hbooks]
  rw [hbp, hta]
  exact ⟨booksPerYear_sorted s, topAuthors_sorted s, topAuthors_length s,
    topAuthors_dominates s, topAuthors_stable s hids⟩

/-- Claim C7, witness: the amended theorem applied at the two-book store
`egStore2`. -/
theorem book_statistics_ordering_witness :
    (book_statistics egStore2).books_per_year.Pairwise (fun p q => p.1 < q.1)
    ∧ (book_statistics egStore2).top_authors.Pairwise
        (fun a b => bookCount egStore2 b ≤ bookCount egStore2 a)
    ∧ (book_statistics egStore2).top_authors.length = min 5 egStore2.authors.length
    ∧ (∀ a ∈ (book_statistics egStore2).top_authors, ∀ b ∈ egStore2.authors,
        b ∉ (book_statistics egStore2).top_authors →
        bookCount egStore2 b ≤ bookCount egStore2 a)
    ∧ (∀ a b : Author, bookCount egStore2 a = bookCount egStore2 b →
        List.Sublist [a, b] (book_statistics egStore2).top_authors →
        List.Sublist [a, b] egStore2.authors) :=
  book_statistics_ordering egStore2 (by decide) (by decide)

/-- Claim C8: partial updates — a successful `updateBook` keeps the row id,
leaves every unsupplied field at its prior value, sets every supplied
field to its validated value, and leaves every other row in place; and a
successful `updateAuthor` does the same for authors. -/
theorem update_partial_fields (s : Store) (bid : Nat) (f : BookFields)
    (s2 : Store) (b b2 : Book)
    (hfind : s.books.find? (fun x => x.id = bid) = some b)
    (h : updateBook s bid f = .ok (s2, b2)) :
    b2.id = b.id
    ∧ (f.title = none → b2.title = b.title)
    ∧ (∀ raw, f.title = some raw → validate_title raw = .ok b2.title)
    ∧ (f.publication_year = none → b2.publication_year = b.publication_year)
    ∧ (∀ v, f.publication_year = some v →
        validate_publication_year v s.currentYear = .ok b2.publication_year)
    ∧ (f.author = none → b2.author = b.author)
    ∧ (∀ aid, f.author = some aid → b2.author = aid)
    ∧ (f.isbn = none → b2.isbn = b.isbn)
    ∧ (∀ raw, f.isbn = some raw → validate_isbn raw = .ok b2.isbn)
    ∧ (∀ x ∈ s.books, x.id ≠ bid → x ∈ s2.books)
    ∧ (∀ aid f2 s3 a a2, s.authors.find? (fun x => x.id = aid) = some a →
        updateAuthor s aid f2 = .ok (s3, a2) →
        a2.id = a.id
        ∧ (f2.name = none → a2.name = a.name)
        ∧ (∀ raw, f2.name = some raw → validate_name raw = .ok a2.name)
        ∧ (∀ x ∈ s.authors, x.id ≠ aid → x ∈ s3.authors)) := by
  obtain ⟨b', t, y, i, hfind', ht, hy, hi, hdup, hb2, hs2⟩ := updateBook_ok h
  rw [hfind] at hfind'
  injection hfind' with hbb
  subst hbb
  have hb2title : b2.title = t := by rw [hb2]
  have hb2year : b2.publication_year = y := by rw [hb2]
  have hb2author : b2.author = f.author.getD b.author := by rw [hb2]
  have hb2isbn : b2.isbn = i := by rw [hb2]
  refine ⟨by rw [hb2], ?_, ?_, ?_, ?_, ?_, ?_, ?_, ?_, ?_, ?_⟩
  · intro h0
    rw [h0] at ht
    simp only [Except.ok.injEq] at ht
    rw [hb2title, ← ht]
  · intro raw h0
    rw [h0] at ht
    rw [hb2title]
    exact ht
  · intro h0
    rw [h0] at hy
    simp only [Except.ok.injEq] at hy
    rw [hb2year, ← hy]
  · intro v h0
    rw [h0] at hy
    rw [hb2year]
    exact hy
  · intro h0
    rw [hb2author, h0]
    rfl
  · intro aid h0
    rw [hb2author, h0]
    rfl
  · intro h0
    rw [h0] at hi
    simp only [Except.ok.injEq] at hi
    rw [hb2isbn, ← hi]
  · intro raw h0
    rw [h0] at hi
    rw [hb2isbn]
    exact hi
  · intro x hx hxid
    rw [hs2]
    dsimp only
    rw [List.mem_map]
    exact ⟨x, hx, by rw [if_neg hxid]⟩
  · intro aid f2 s3 a a2 hafind h2
    obtain ⟨a', hafind', hn, haid, hs3⟩ := updateAuthor_ok h2
    rw [hafind] at hafind'
    injection hafind' with haa
    subst haa
    refine ⟨haid, ?_, ?_, ?_⟩
    · intro h0
      rw [h0] at hn
      simp only [Except.ok.injEq] at hn
      rw [← hn]
    · intro raw h0
      rw [h0] at hn
      exact hn
    · intro x hx hxid
      rw [hs3]
      dsimp only
      rw [List.mem_map]
      exact ⟨x, hx, by rw [if_neg hxid]⟩

/-- Claim C8, witness: updating only the title of the book in `egStore1`
leaves the unsupplied publication year at its prior value. -/
theorem update_partial_fields_witness :
    (⟨1, "Emma II".toList, 1815, 1, none⟩ : Book).publication_year =
      (⟨1, "Emma".toList, 1815, 1, none⟩ : Book).publication_year :=
  (update_partial_fields egStore1 1 ⟨some "Emma II".toList, none, none, none⟩
    ⟨[⟨1, "Jane Austen".toList⟩], [⟨1, "Emma II".toList, 1815, 1, none⟩], 2, 2, 2025⟩
    ⟨1, "Emma".toList, 1815, 1, none⟩ ⟨1, "Emma II".toList, 1815, 1, none⟩
    (by rfl) (by rfl)).2.2.2.1 rfl

end DjangoLearnLab
